import Mathlib

/-!
Shallow embedding of `src/listener.py` from `transformers_ocr`:
a daemon that reads `action::file_path` lines from a FIFO, runs an OCR
engine on the referenced image files, accumulates held text and flushes
it to the clipboard.
-/

/-- The full-width interpunct separator, `SPACE = '、'` in the source. -/
def SPACE : String := "、"

/-- A parsed command, `OcrCommand(action, file_path)` in the source. -/
structure OcrCommand where
  action : String
  file_path : String
deriving DecidableEq, Repr

/-- Observable side effects of command processing: an OCR-engine call
(`self._mocr(path)`), a clipboard write (`to_clip`), or a desktop
notification (`notify_send`). -/
inductive Effect where
  | ocr (path : String)
  | clip (text : String)
  | notify (msg : String)
deriving DecidableEq, Repr

/-- Session state of `MangaOcrWrapper`: the `self._on_hold` accumulator
plus the set of paths that currently exist on disk as files (the part of
the filesystem the listener observes through `os.path.isfile` and
mutates through `os.remove`). -/
structure SessState where
  on_hold : List String
  files : List String
deriving DecidableEq, Repr

/-- `os.path.isfile(p)` over the modelled filesystem. -/
def isfile (files : List String) (p : String) : Bool :=
  files.contains p

/-- `os.remove(p)` over the modelled filesystem. -/
def os_remove (files : List String) (p : String) : List String :=
  files.filter (fun q => q != p)

/-- Whitespace characters removed by Python's `str.strip()` (ASCII
whitespace; the characters relevant to the listener's line protocol). -/
def isSpaceChar (c : Char) : Bool :=
  c == ' ' || c == '\t' || c == '\n' || c == '\r' || c == '\x0b' || c == '\x0c'

/-- `line.strip()`: drop leading and trailing whitespace characters. -/
def stripList (l : List Char) : List Char :=
  ((l.dropWhile isSpaceChar).reverse.dropWhile isSpaceChar).reverse

/-- Python's `s.split("::")`: non-overlapping, left-to-right split on the
two-character delimiter, keeping empty parts. -/
def splitOnColons : List Char → List (List Char)
  | [] => [[]]
  | [c] => [[c]]
  | c1 :: c2 :: rest =>
    if c1 == ':' && c2 == ':' then
      [] :: splitOnColons rest
    else
      match splitOnColons (c2 :: rest) with
      | [] => [[c1]]
      | p :: ps => (c1 :: p) :: ps

/-- Number of non-overlapping occurrences of the delimiter `::`,
scanning left to right exactly as Python's `str.count`/`str.split`. -/
def countColons : List Char → Nat
  | [] => 0
  | [_] => 0
  | c1 :: c2 :: rest =>
    if c1 == ':' && c2 == ':' then
      countColons rest + 1
    else
      countColons (c2 :: rest)

/-- Occurrences of `::` in a string. -/
def delimCount (s : String) : Nat :=
  countColons s.toList

/-- Body of `iter_commands` for one line:
`OcrCommand(*line.strip().split("::"))`.  Constructing the dataclass
succeeds only when the split yields exactly two fields; otherwise the
constructor call raises `TypeError`, modelled as `none`. -/
def parse_line (line : String) : Option OcrCommand :=
  match splitOnColons (stripList line.toList) with
  | [action, path] => some ⟨action.asString, path.asString⟩
  | _ => none

/-- `MangaOcrWrapper._process_command`, as a pure transition on the
session state returning the emitted effects.  `mocr` is the black-box
engine `self._mocr`. -/
def process_command (mocr : String → String) (s : SessState) (c : OcrCommand) :
    SessState × List Effect :=
  if c.action = "stop" then
    (s, [Effect.notify "Stopped listening."])
  else if isfile s.files c.file_path then
    if c.action = "hold" then
      let text := mocr c.file_path
      (⟨s.on_hold ++ [text], os_remove s.files c.file_path⟩,
        [Effect.ocr c.file_path, Effect.notify ("Holding " ++ text)])
    else if c.action = "recognize" then
      let text := String.intercalate SPACE (s.on_hold ++ [mocr c.file_path])
      (⟨[], os_remove s.files c.file_path⟩,
        [Effect.ocr c.file_path, Effect.clip text,
          Effect.notify ("Copied " ++ text)])
    else
      (⟨s.on_hold, os_remove s.files c.file_path⟩, [])
  else
    (s, [])

/-- Processing a list of already-parsed commands in order, accumulating
effects. -/
def run_commands (mocr : String → String) (s : SessState) :
    List OcrCommand → SessState × List Effect
  | [] => (s, [])
  | c :: cs =>
    let r1 := process_command mocr s c
    let r2 := run_commands mocr r1.1 cs
    (r2.1, r1.2 ++ r2.2)

/-- One pipe-open of the receive loop: lines are parsed lazily by the
`iter_commands` generator and dispatched one at a time.  A line on which
`OcrCommand(*parts)` fails raises `TypeError`, which nothing catches:
the returned flag records that the loop died there, and the remaining
lines are never processed. -/
def run_lines (mocr : String → String) (s : SessState) :
    List String → SessState × List Effect × Bool
  | [] => (s, [], false)
  | l :: ls =>
    match parse_line l with
    | none => (s, [], true)
    | some c =>
      let r1 := process_command mocr s c
      let r2 := run_lines mocr r1.1 ls
      (r2.1, r1.2 ++ r2.2.1, r2.2.2)

/-- `MangaOcrWrapper.loop`: reopen the FIFO after each writer disconnect
and drain it; each element of the outer list is the line sequence of one
pipe-open.  An uncaught exception in any open aborts all later opens. -/
def run_sessions (mocr : String → String) (s : SessState) :
    List (List String) → SessState × List Effect × Bool
  | [] => (s, [], false)
  | ls :: rest =>
    let r1 := run_lines mocr s ls
    if r1.2.2 then (r1.1, r1.2.1, true)
    else
      let r2 := run_sessions mocr r1.1 rest
      (r2.1, r1.2.1 ++ r2.2.1, r2.2.2)

/-- The clipboard writes among a list of effects, in order. -/
def clipTexts (effs : List Effect) : List String :=
  effs.filterMap (fun e =>
    match e with
    | Effect.clip t => some t
    | _ => none)

/-- What occupies the filesystem entry at `PIPE_PATH`: nothing, a
regular file, a FIFO, or some other kind of entry (directory, socket,
dangling symlink, ...). -/
inductive PathState where
  | absent
  | regularFile
  | fifo
  | other
deriving DecidableEq, Repr

/-- `os.path.isfile(PIPE_PATH)`: true only for a regular file. -/
def os_path_isfile : PathState → Bool
  | PathState.regularFile => true
  | _ => false

/-- `is_fifo(PIPE_PATH)` in the source: `stat.S_ISFIFO(os.stat(path).st_mode)`
with `FileNotFoundError` mapped to `False`. -/
def is_fifo : PathState → Bool
  | PathState.fifo => true
  | _ => false

/-- `prepare_pipe()`: remove a regular file at the pipe path, then
create a FIFO if none is there.  `os.mkfifo` on a path that is still
occupied raises `FileExistsError`, modelled as `Except.error` carrying
the filesystem state at the time of the raise. -/
def prepare_pipe (st : PathState) : Except PathState PathState :=
  let st1 := if os_path_isfile st then PathState.absent else st
  if is_fifo st1 then Except.ok st1
  else
    match st1 with
    | PathState.absent => Except.ok PathState.fifo
    | s => Except.error s

/-- `line.startswith('#')`. -/
def startsWithHash (s : String) : Bool :=
  match s.toList with
  | c :: _ => c == '#'
  | [] => false

/-- `is_valid_key_val_pair`: `'=' in line and not line.startswith('#')`. -/
def is_valid_key_val_pair (line : String) : Bool :=
  line.toList.contains '=' && !(startsWithHash line)

/-- Python's `line.split("=", maxsplit=1)`: the part before the first
`=` and everything after it. -/
def splitEqOnce : List Char → List Char × List Char
  | [] => ([], [])
  | c :: cs =>
    if c == '=' then ([], cs)
    else
      let r := splitEqOnce cs
      (c :: r.1, r.2)

/-- `key, value = line.split("=", maxsplit=1)` as a pair of strings. -/
def splitKeyVal (line : String) : String × String :=
  let r := splitEqOnce line.toList
  (r.1.asString, r.2.asString)

/-- `get_config()`: the config file content is `none` when the file is
absent, otherwise its list of lines (`f.read().splitlines()`).  Valid
`key=value` lines are collected in order; a later binding of a key
overrides an earlier one, as in the Python dict. -/
def get_config (file : Option (List String)) : List (String × String) :=
  match file with
  | none => []
  | some lines => (lines.filter is_valid_key_val_pair).map splitKeyVal

/-- `dict.get`-style lookup: the value of the LAST binding of `key`,
matching Python dict insertion/overwrite semantics. -/
def config_find (cfg : List (String × String)) (key : String) : Option String :=
  cfg.reverse.lookup key

/-- `TrOcrConfig._should_force_cpu`:
`self._config.get('force_cpu', 'no') in ('true', 'yes')`. -/
def should_force_cpu (cfg : List (String × String)) : Bool :=
  let v := (config_find cfg "force_cpu").getD "no"
  v == "true" || v == "yes"

/-- Python's `s.split()` (no argument): split on whitespace runs,
dropping empty fragments; `acc` holds the current fragment reversed. -/
def wsSplitAux : List Char → List Char → List (List Char)
  | [], acc => if acc == [] then [] else [acc.reverse]
  | c :: cs, acc =>
    if isSpaceChar c then
      if acc == [] then wsSplitAux cs []
      else acc.reverse :: wsSplitAux cs []
    else wsSplitAux cs (c :: acc)

/-- `s.split()` on a string. -/
def pySplitWhitespace (s : String) : List String :=
  (wsSplitAux s.toList []).map List.asString

/-- `TrOcrConfig._custom_clip_args`:
`self._config["clip_command"].strip().split()`, with `KeyError` for a
missing key mapped to `None`. -/
def custom_clip_args (cfg : List (String × String)) : Option (List String) :=
  match config_find cfg "clip_command" with
  | some v => some (pySplitWhitespace (stripList v.toList).asString)
  | none => none

/-! ## Basic facts about the modelled filesystem and dispatcher -/

theorem isfile_os_remove_self (fs : List String) (p : String) :
    isfile (os_remove fs p) p = false := by
  simp [isfile, os_remove, List.elem_eq_mem, List.mem_filter]

theorem isfile_os_remove_of_ne (fs : List String) (p x : String) (h : x ≠ p) :
    isfile (os_remove fs p) x = isfile fs x := by
  simp [isfile, os_remove, List.elem_eq_mem, List.mem_filter, h]

theorem process_stop (mocr : String → String) (s : SessState) (p : String) :
    process_command mocr s ⟨"stop", p⟩ = (s, [Effect.notify "Stopped listening."]) := by
  simp [process_command]

theorem process_hold (mocr : String → String) (s : SessState) (p : String)
    (hf : isfile s.files p = true) :
    process_command mocr s ⟨"hold", p⟩ =
      (⟨s.on_hold ++ [mocr p], os_remove s.files p⟩,
        [Effect.ocr p, Effect.notify ("Holding " ++ mocr p)]) := by
  simp [process_command, hf]

theorem process_recognize (mocr : String → String) (s : SessState) (q : String)
    (hf : isfile s.files q = true) :
    process_command mocr s ⟨"recognize", q⟩ =
      (⟨[], os_remove s.files q⟩,
        [Effect.ocr q,
          Effect.clip (String.intercalate SPACE (s.on_hold ++ [mocr q])),
          Effect.notify ("Copied " ++ String.intercalate SPACE (s.on_hold ++ [mocr q]))]) := by
  simp [process_command, hf]

theorem process_unknown (mocr : String → String) (s : SessState) (c : OcrCommand)
    (h1 : c.action ≠ "stop") (h2 : c.action ≠ "hold") (h3 : c.action ≠ "recognize")
    (hf : isfile s.files c.file_path = true) :
    process_command mocr s c = (⟨s.on_hold, os_remove s.files c.file_path⟩, []) := by
  simp [process_command, h1, h2, h3, hf]

theorem process_missing (mocr : String → String) (s : SessState) (c : OcrCommand)
    (ha : c.action ≠ "stop") (hf : isfile s.files c.file_path = false) :
    process_command mocr s c = (s, []) := by
  simp [process_command, ha, hf]

/-! ## Claim theorems -/

/-- C3 (amended): for every command whose action is NOT `stop` and whose
`file_path` does not exist on disk, processing the command is a no-op:
no engine call, no clipboard or notification effect, no hold-buffer
mutation, no filesystem mutation, and no error raised. -/
theorem C3_missing_file_noop (mocr : String → String) (s : SessState) (c : OcrCommand)
    (ha : c.action ≠ "stop") (hf : isfile s.files c.file_path = false) :
    process_command mocr s c = (s, []) :=
  process_missing mocr s c ha hf

/-- Witness for C3: a `hold` command on a missing file changes nothing
and emits nothing. -/
theorem C3_missing_file_noop_witness :
    (OcrCommand.mk "hold" "/a.png").action ≠ "stop" ∧
    isfile (SessState.mk ["t"] []).files (OcrCommand.mk "hold" "/a.png").file_path = false ∧
    process_command (fun p => p) ⟨["t"], []⟩ ⟨"hold", "/a.png"⟩ = (⟨["t"], []⟩, []) :=
  ⟨by decide, by decide,
    C3_missing_file_noop (fun p => p) ⟨["t"], []⟩ ⟨"hold", "/a.png"⟩ (by decide) (by decide)⟩

/-- Counterexample for C3 as stated: a `stop` command whose file does
not exist is NOT a no-op — it still emits the "Stopped listening."
notification, because the `stop` arm of the match fires before the
file-existence guard is consulted. -/
theorem C3_counterexample :
    isfile ([] : List String) "/img.png" = false ∧
    (process_command (fun p => p) ⟨[], []⟩ ⟨"stop", "/img.png"⟩).2 =
      [Effect.notify "Stopped listening."] :=
  ⟨rfl, rfl⟩

/-- C4: a `hold` command on an existing file calls the engine on the
path, appends the recognized text to the hold buffer (length grows by
exactly one), emits a "Holding <text>" notification, and deletes the
file. -/
theorem C4_hold_processing (mocr : String → String) (s : SessState) (p : String)
    (hf : isfile s.files p = true) :
    process_command mocr s ⟨"hold", p⟩ =
      (⟨s.on_hold ++ [mocr p], os_remove s.files p⟩,
        [Effect.ocr p, Effect.notify ("Holding " ++ mocr p)]) ∧
    (process_command mocr s ⟨"hold", p⟩).1.on_hold.length = s.on_hold.length + 1 ∧
    isfile (process_command mocr s ⟨"hold", p⟩).1.files p = false := by
  have h := process_hold mocr s p hf
  refine ⟨h, ?_, ?_⟩
  · rw [h]; simp
  · rw [h]; exact isfile_os_remove_self s.files p

/-- Witness for C4 at a concrete state and engine. -/
theorem C4_hold_processing_witness :
    isfile ["a", "b"] "a" = true ∧
    (process_command (fun p => p ++ "!") ⟨["t"], ["a", "b"]⟩ ⟨"hold", "a"⟩ =
        (⟨["t", "a!"], ["b"]⟩, [Effect.ocr "a", Effect.notify ("Holding " ++ "a!")]) ∧
      (process_command (fun p => p ++ "!") ⟨["t"], ["a", "b"]⟩ ⟨"hold", "a"⟩).1.on_hold.length =
        (["t"] : List String).length + 1 ∧
      isfile (process_command (fun p => p ++ "!") ⟨["t"], ["a", "b"]⟩ ⟨"hold", "a"⟩).1.files "a" =
        false) :=
  ⟨by decide, C4_hold_processing (fun p => p ++ "!") ⟨["t"], ["a", "b"]⟩ "a" (by decide)⟩

/-- C6: a `recognize` command processed with an empty hold buffer sends
exactly the engine output to the clipboard, with no separator attached. -/
theorem C6_recognize_empty_buffer (mocr : String → String) (s : SessState) (q : String)
    (hb : s.on_hold = []) (hf : isfile s.files q = true) :
    (process_command mocr s ⟨"recognize", q⟩).2 =
      [Effect.ocr q, Effect.clip (mocr q), Effect.notify ("Copied " ++ mocr q)] := by
  rw [process_recognize mocr s q hf, hb]
  rfl

/-- Witness for C6. -/
theorem C6_recognize_empty_buffer_witness :
    (SessState.mk [] ["a"]).on_hold = ([] : List String) ∧
    isfile ["a"] "a" = true ∧
    (process_command (fun p => p ++ "!") ⟨[], ["a"]⟩ ⟨"recognize", "a"⟩).2 =
      [Effect.ocr "a", Effect.clip ("a" ++ "!"), Effect.notify ("Copied " ++ ("a" ++ "!"))] :=
  ⟨rfl, by decide,
    C6_recognize_empty_buffer (fun p => p ++ "!") ⟨[], ["a"]⟩ "a" rfl (by decide)⟩

/-- C9: a command with an unrecognized action (none of `stop`, `hold`,
`recognize`) on an existing file silently deletes the file: no engine
call, no buffer mutation, no clipboard or notification effect. -/
theorem C9_unknown_action_deletes (mocr : String → String) (s : SessState) (c : OcrCommand)
    (h1 : c.action ≠ "stop") (h2 : c.action ≠ "hold") (h3 : c.action ≠ "recognize")
    (hf : isfile s.files c.file_path = true) :
    process_command mocr s c = (⟨s.on_hold, os_remove s.files c.file_path⟩, []) ∧
    isfile (process_command mocr s c).1.files c.file_path = false := by
  have h := process_unknown mocr s c h1 h2 h3 hf
  exact ⟨h, by rw [h]; exact isfile_os_remove_self s.files c.file_path⟩

/-- Witness for C9 with action `"frobnicate"`. -/
theorem C9_unknown_action_deletes_witness :
    (OcrCommand.mk "frobnicate" "a").action ≠ "stop" ∧
    (OcrCommand.mk "frobnicate" "a").action ≠ "hold" ∧
    (OcrCommand.mk "frobnicate" "a").action ≠ "recognize" ∧
    isfile ["a"] "a" = true ∧
    (process_command (fun p => p) ⟨["t"], ["a"]⟩ ⟨"frobnicate", "a"⟩ =
        (⟨["t"], os_remove ["a"] "a"⟩, []) ∧
      isfile (process_command (fun p => p) ⟨["t"], ["a"]⟩ ⟨"frobnicate", "a"⟩).1.files "a" =
        false) :=
  ⟨by decide, by decide, by decide, by decide,
    C9_unknown_action_deletes (fun p => p) ⟨["t"], ["a"]⟩ ⟨"frobnicate", "a"⟩
      (by decide) (by decide) (by decide) (by decide)⟩

/-- C10: processing a `stop` command never touches the filesystem — in
particular a file at the referenced path exists afterwards exactly when
it existed before. -/
theorem C10_stop_keeps_file (mocr : String → String) (s : SessState) (p : String) :
    (process_command mocr s ⟨"stop", p⟩).1.files = s.files ∧
    isfile (process_command mocr s ⟨"stop", p⟩).1.files p = isfile s.files p := by
  have h := process_stop mocr s p
  exact ⟨by rw [h], by rw [h]⟩

/-- C7 (amended): `prepare_pipe` is idempotent (in the sense that a
second run changes nothing, also when the first run raised), and it
establishes a FIFO at the pipe path whenever the prior entry is absent,
a regular file, or already a FIFO.  It does NOT handle other entries:
only regular files are removed, and `os.mkfifo` then raises. -/
theorem C7_prepare_pipe (st : PathState) :
    (prepare_pipe st).bind prepare_pipe = prepare_pipe st ∧
    (st ≠ PathState.other → prepare_pipe st = Except.ok PathState.fifo) := by
  cases st with
  | absent => exact ⟨rfl, fun _ => rfl⟩
  | regularFile => exact ⟨rfl, fun _ => rfl⟩
  | fifo => exact ⟨rfl, fun _ => rfl⟩
  | other => exact ⟨rfl, fun h => absurd rfl h⟩

/-- Witness for C7 at a regular file occupying the pipe path. -/
theorem C7_prepare_pipe_witness :
    ((prepare_pipe PathState.regularFile).bind prepare_pipe =
      prepare_pipe PathState.regularFile) ∧
    PathState.regularFile ≠ PathState.other ∧
    prepare_pipe PathState.regularFile = Except.ok PathState.fifo :=
  ⟨(C7_prepare_pipe PathState.regularFile).1, by decide,
    (C7_prepare_pipe PathState.regularFile).2 (by decide)⟩

/-- Counterexample for C7 as stated: when the pipe path is occupied by
an entry that is neither a regular file nor a FIFO (e.g. a directory),
`prepare_pipe` does not delete it — `os.path.isfile` is false — and
`os.mkfifo` raises `FileExistsError`, so no FIFO exists afterwards. -/
theorem C7_counterexample :
    prepare_pipe PathState.other = Except.error PathState.other ∧
    is_fifo PathState.other = false :=
  ⟨rfl, rfl⟩

/-! ## Counting `::` occurrences: `strip()` does not change the count -/

theorem splitOnColons_ne_nil : ∀ l : List Char, splitOnColons l ≠ []
  | [] => by simp [splitOnColons]
  | [c] => by simp [splitOnColons]
  | c1 :: c2 :: rest => by
    by_cases h : (c1 == ':' && c2 == ':') = true
    · simp [splitOnColons, h]
    · simp only [splitOnColons, h, if_false, Bool.false_eq_true]
      cases hs : splitOnColons (c2 :: rest) <;> simp

theorem splitOnColons_length : ∀ l : List Char,
    (splitOnColons l).length = countColons l + 1
  | [] => rfl
  | [_] => rfl
  | c1 :: c2 :: rest => by
    by_cases h : (c1 == ':' && c2 == ':') = true
    · simp [splitOnColons, countColons, h, splitOnColons_length rest]
    · have h2 := splitOnColons_length (c2 :: rest)
      have hne := splitOnColons_ne_nil (c2 :: rest)
      simp only [splitOnColons, countColons, h, if_false, Bool.false_eq_true]
      cases hs : splitOnColons (c2 :: rest) with
      | nil => exact absurd hs hne
      | cons p ps => rw [hs] at h2; simpa using h2

theorem space_beq_colon (c : Char) (h : isSpaceChar c = true) : (c == ':') = false := by
  cases hb : c == ':' with
  | false => rfl
  | true =>
    have hc : c = ':' := by simpa using hb
    subst hc
    exact absurd h (by decide)

theorem countColons_cons_space (c : Char) (l : List Char) (h : isSpaceChar c = true) :
    countColons (c :: l) = countColons l := by
  have hc := space_beq_colon c h
  cases l with
  | nil => rfl
  | cons b t => simp [countColons, hc]

theorem countColons_dropWhile_space : ∀ l : List Char,
    countColons (l.dropWhile isSpaceChar) = countColons l
  | [] => rfl
  | c :: t => by
    by_cases h : isSpaceChar c = true
    · rw [List.dropWhile_cons_of_pos h, countColons_dropWhile_space t,
        countColons_cons_space c t h]
    · rw [List.dropWhile_cons_of_neg h]

theorem countColons_concat_space : ∀ (l : List Char) (c : Char),
    isSpaceChar c = true → countColons (l ++ [c]) = countColons l
  | [], _, _ => rfl
  | [a], c, h => by
    have hc := space_beq_colon c h
    simp [countColons, hc]
  | a :: b :: t, c, h => by
    by_cases hab : (a == ':' && b == ':') = true
    · show countColons (a :: b :: (t ++ [c])) = countColons (a :: b :: t)
      simp [countColons, hab, countColons_concat_space t c h]
    · show countColons (a :: b :: (t ++ [c])) = countColons (a :: b :: t)
      simp only [countColons, hab, if_false, Bool.false_eq_true]
      exact countColons_concat_space (b :: t) c h

theorem countColons_rstrip (l : List Char) :
    countColons ((l.reverse.dropWhile isSpaceChar).reverse) = countColons l := by
  induction l using List.reverseRecOn with
  | nil => rfl
  | append_singleton t c ih =>
    by_cases h : isSpaceChar c = true
    · rw [List.reverse_append]
      simp only [List.reverse_singleton, List.singleton_append,
        List.dropWhile_cons_of_pos h]
      rw [ih, countColons_concat_space t c h]
    · rw [List.reverse_append]
      simp only [List.reverse_singleton, List.singleton_append,
        List.dropWhile_cons_of_neg h]
      simp

theorem countColons_stripList (l : List Char) :
    countColons (stripList l) = countColons l := by
  unfold stripList
  rw [countColons_rstrip (l.dropWhile isSpaceChar), countColons_dropWhile_space l]

theorem parse_line_none_of_delimCount (line : String) (h : delimCount line ≠ 1) :
    parse_line line = none := by
  have hlen : (splitOnColons (stripList line.toList)).length ≠ 2 := by
    rw [splitOnColons_length, countColons_stripList]
    unfold delimCount at h
    omega
  unfold parse_line
  rcases hs : splitOnColons (stripList line.toList) with _ | ⟨a, _ | ⟨b, _ | ⟨d, t3⟩⟩⟩
  · rfl
  · rfl
  · rw [hs] at hlen; simp at hlen
  · rfl

/-- C2 (amended): a line whose number of `::` occurrences is not exactly
one never produces a command — `OcrCommand(*parts)` fails — so the line
never reaches dispatch; but the failure is an uncaught `TypeError`, so
the receive loop does NOT continue: it terminates at that line, and
subsequent lines are not processed. -/
theorem C2_malformed_line_crashes (line : String) (mocr : String → String)
    (s : SessState) (ls : List String) (h : delimCount line ≠ 1) :
    parse_line line = none ∧
    run_lines mocr s (line :: ls) = (s, [], true) := by
  have hp := parse_line_none_of_delimCount line h
  exact ⟨hp, by simp [run_lines, hp]⟩

/-- Witness for C2 (amended) at a line with two delimiter occurrences,
followed by a well-formed line that is consequently never processed. -/
theorem C2_malformed_line_crashes_witness :
    delimCount "a::b::c" ≠ 1 ∧
    (parse_line "a::b::c" = none ∧
      run_lines (fun p => p) ⟨[], []⟩ ["a::b::c", "stop::x"] = (⟨[], []⟩, [], true)) :=
  ⟨by decide,
    C2_malformed_line_crashes "a::b::c" (fun p => p) ⟨[], []⟩ ["stop::x"] (by decide)⟩

/-- Counterexample for C2 as stated: after the zero-delimiter line
"hold" the loop does not continue — the crash flag is set and the
following well-formed `stop::x` line emits no notification, contrary to
"the receive loop continues without crashing". -/
theorem C2_counterexample :
    delimCount "hold" = 0 ∧
    parse_line "hold" = none ∧
    run_lines (fun p => p) ⟨[], ["x"]⟩ ["hold", "stop::x"] = (⟨[], ["x"]⟩, [], true) := by
  exact ⟨by decide, by decide, by decide⟩

/-- C5: a `stop` command, whatever its file path, only emits the
"Stopped listening." notification: the session state is unchanged and
the receive loop is not terminated — the remaining lines of the same
pipe-open and all lines of later pipe-opens are still processed. -/
theorem C5_stop_advisory (mocr : String → String) (s : SessState) (p : String)
    (l : String) (rest1 : List String) (rest2 : List (List String))
    (hl : parse_line l = some ⟨"stop", p⟩) :
    process_command mocr s ⟨"stop", p⟩ = (s, [Effect.notify "Stopped listening."]) ∧
    run_sessions mocr s ((l :: rest1) :: rest2) =
      ((run_sessions mocr s (rest1 :: rest2)).1,
        Effect.notify "Stopped listening." :: (run_sessions mocr s (rest1 :: rest2)).2.1,
        (run_sessions mocr s (rest1 :: rest2)).2.2) := by
  have hp := process_stop mocr s p
  refine ⟨hp, ?_⟩
  simp only [run_sessions, run_lines, hl, hp]
  cases hb : (run_lines mocr s rest1).2.2 <;> simp [hb]

/-- Witness for C5: a stop line, then a later pipe-open whose command is
still processed. -/
theorem C5_stop_advisory_witness :
    parse_line "stop::x" = some ⟨"stop", "x"⟩ ∧
    (process_command (fun p => p) ⟨["h"], ["y"]⟩ ⟨"stop", "x"⟩ =
        (⟨["h"], ["y"]⟩, [Effect.notify "Stopped listening."]) ∧
      run_sessions (fun p => p) ⟨["h"], ["y"]⟩ (("stop::x" :: []) :: [["stop::y"]]) =
        ((run_sessions (fun p => p) ⟨["h"], ["y"]⟩ ([] :: [["stop::y"]])).1,
          Effect.notify "Stopped listening." ::
            (run_sessions (fun p => p) ⟨["h"], ["y"]⟩ ([] :: [["stop::y"]])).2.1,
          (run_sessions (fun p => p) ⟨["h"], ["y"]⟩ ([] :: [["stop::y"]])).2.2)) :=
  ⟨by decide,
    C5_stop_advisory (fun p => p) ⟨["h"], ["y"]⟩ "x" "stop::x" [] [["stop::y"]] (by decide)⟩

/-- Processing N `hold` commands and then one `recognize`, all on
distinct existing files, sends one clipboard write whose text joins the
initial hold buffer, the held texts and the final recognition with the
interpunct, and clears the hold buffer. -/
theorem run_holds_then_recognize (mocr : String → String) :
    ∀ (ps : List String) (q : String) (s : SessState),
      (ps ++ [q]).Nodup →
      (∀ p ∈ ps ++ [q], isfile s.files p = true) →
      clipTexts (run_commands mocr s
          (ps.map (fun p => OcrCommand.mk "hold" p) ++ [OcrCommand.mk "recognize" q])).2 =
        [String.intercalate SPACE (s.on_hold ++ ps.map mocr ++ [mocr q])] ∧
      (run_commands mocr s
          (ps.map (fun p => OcrCommand.mk "hold" p) ++
            [OcrCommand.mk "recognize" q])).1.on_hold = []
  | [], q, s, _, hmem => by
    have hq : isfile s.files q = true := hmem q (by simp)
    have hr := process_recognize mocr s q hq
    simp [run_commands, hr, clipTexts]
  | p :: ps, q, s, hnd, hmem => by
    have hp : isfile s.files p = true := hmem p (by simp)
    have hh := process_hold mocr s p hp
    rw [List.cons_append, List.nodup_cons] at hnd
    obtain ⟨hpnotin, hnd'⟩ := hnd
    have hmem' : ∀ x ∈ ps ++ [q],
        isfile (SessState.mk (s.on_hold ++ [mocr p]) (os_remove s.files p)).files x = true := by
      intro x hx
      have hxp : x ≠ p := fun hxe => hpnotin (hxe ▸ hx)
      show isfile (os_remove s.files p) x = true
      rw [isfile_os_remove_of_ne s.files p x hxp]
      exact hmem x (by simp only [List.cons_append, List.mem_cons]; exact Or.inr hx)
    have IH := run_holds_then_recognize mocr ps q
      ⟨s.on_hold ++ [mocr p], os_remove s.files p⟩ hnd' hmem'
    simp only [List.map_cons, List.cons_append, run_commands, hh, List.append_eq]
    simp only [clipTexts, List.filterMap_cons, List.nil_append] at IH ⊢
    refine ⟨?_, IH.2⟩
    rw [IH.1]
    simp [List.append_assoc]

/-- C1: starting from an empty hold buffer, N `hold` commands on
distinct existing files followed by one `recognize` on a further
existing file produce exactly one clipboard write, whose text is the
held texts and the final recognition joined with the full-width
interpunct in insertion order, and the hold buffer is empty afterward. -/
theorem C1_hold_sequence_flush (mocr : String → String) (s : SessState)
    (ps : List String) (q : String)
    (hnd : (ps ++ [q]).Nodup)
    (hmem : ∀ p ∈ ps ++ [q], isfile s.files p = true)
    (hempty : s.on_hold = []) :
    clipTexts (run_commands mocr s
        (ps.map (fun p => OcrCommand.mk "hold" p) ++ [OcrCommand.mk "recognize" q])).2 =
      [String.intercalate SPACE (ps.map mocr ++ [mocr q])] ∧
    (run_commands mocr s
        (ps.map (fun p => OcrCommand.mk "hold" p) ++
          [OcrCommand.mk "recognize" q])).1.on_hold = [] := by
  have h := run_holds_then_recognize mocr ps q s hnd hmem
  rwa [hempty, List.nil_append] at h

/-- Witness for C1 with two held files and one recognized file. -/
theorem C1_hold_sequence_flush_witness :
    ((["a", "b"] ++ ["c"]).Nodup) ∧
    (∀ p ∈ ["a", "b"] ++ ["c"], isfile ["a", "b", "c"] p = true) ∧
    (clipTexts (run_commands (fun p => p ++ "!") ⟨[], ["a", "b", "c"]⟩
        ((["a", "b"].map (fun p => OcrCommand.mk "hold" p)) ++
          [OcrCommand.mk "recognize" "c"])).2 =
      [String.intercalate SPACE (["a", "b"].map (fun p => p ++ "!") ++ ["c" ++ "!"])] ∧
    (run_commands (fun p => p ++ "!") ⟨[], ["a", "b", "c"]⟩
        ((["a", "b"].map (fun p => OcrCommand.mk "hold" p)) ++
          [OcrCommand.mk "recognize" "c"])).1.on_hold = []) :=
  ⟨by decide, by decide,
    C1_hold_sequence_flush (fun p => p ++ "!") ⟨[], ["a", "b", "c"]⟩ ["a", "b"] "c"
      (by decide) (by decide) rfl⟩

/-- C8: config loading ignores lines without `=` and lines starting with
`#`; `force_cpu` yields true exactly for the values `"true"` and
`"yes"` and defaults to false when the key or file is absent; and
`clip_command` is stripped and whitespace-split into the clip argument
list, absent key or file yielding none. -/
theorem C8_config (lines1 lines2 : List String) (bad : String)
    (file : Option (List String))
    (hbad : bad.toList.contains '=' = false ∨ startsWithHash bad = true) :
    get_config (some (lines1 ++ bad :: lines2)) = get_config (some (lines1 ++ lines2)) ∧
    (should_force_cpu (get_config file) = true ↔
      (config_find (get_config file) "force_cpu" = some "true" ∨
        config_find (get_config file) "force_cpu" = some "yes")) ∧
    should_force_cpu (get_config none) = false ∧
    custom_clip_args (get_config file) =
      (config_find (get_config file) "clip_command").map
        (fun v => pySplitWhitespace (stripList v.toList).asString) ∧
    custom_clip_args (get_config none) = none := by
  have hbad2 : is_valid_key_val_pair bad = false := by
    unfold is_valid_key_val_pair
    rcases hbad with h | h
    · rw [h]; rfl
    · rw [h]; simp
  refine ⟨?_, ?_, by decide, ?_, rfl⟩
  · simp [get_config, List.filter_append, List.filter_cons, hbad2]
  · cases hv : config_find (get_config file) "force_cpu" with
    | none => simp [should_force_cpu, hv]
    | some v => simp [should_force_cpu, hv, Bool.or_eq_true, beq_iff_eq]
  · cases hv : config_find (get_config file) "clip_command" with
    | none => simp [custom_clip_args, hv]
    | some v => simp [custom_clip_args, hv]

/-- Witness for C8: a comment line is ignored, `force_cpu=yes` forces
CPU, and `clip_command=xsel -b` splits into two arguments. -/
theorem C8_config_witness :
    (("#c=1" : String).toList.contains '=' = false ∨ startsWithHash "#c=1" = true) ∧
    (get_config (some (["a=1"] ++ "#c=1" :: ["b=2"])) =
        get_config (some (["a=1"] ++ ["b=2"])) ∧
      (should_force_cpu (get_config (some ["force_cpu=yes", "clip_command=xsel -b"])) = true ↔
        (config_find (get_config (some ["force_cpu=yes", "clip_command=xsel -b"]))
            "force_cpu" = some "true" ∨
          config_find (get_config (some ["force_cpu=yes", "clip_command=xsel -b"]))
            "force_cpu" = some "yes")) ∧
      should_force_cpu (get_config none) = false ∧
      custom_clip_args (get_config (some ["force_cpu=yes", "clip_command=xsel -b"])) =
        (config_find (get_config (some ["force_cpu=yes", "clip_command=xsel -b"]))
            "clip_command").map
          (fun v => pySplitWhitespace (stripList v.toList).asString) ∧
      custom_clip_args (get_config none) = none) :=
  ⟨by decide,
    C8_config ["a=1"] ["b=2"] "#c=1" (some ["force_cpu=yes", "clip_command=xsel -b"])
      (by decide)⟩
